import Mathlib

/-!
Shallow embedding of the mp4box sample-table resolver (src/samples.rs) and
the JSON report projection (src/json_api.rs).

Machine integers are modelled as Nat (unsigned) and Int (signed), with an
explicit `% 2^32` or `% 2^64` wherever the Rust release-mode arithmetic can
wrap. Record types for the decoded sample tables (SttsData, CttsData, ...)
live in the repository module `registry`, whose source is not included; their
field shapes are taken from the spec (section 3, Sample-table records) and
from their uses in samples.rs.
-/

namespace Mp4

/-- Modulus of u32 arithmetic. -/
def U32 : Nat := 2 ^ 32

/-- Modulus of u64 arithmetic. -/
def U64 : Nat := 2 ^ 64

/-- Wrapping u32 subtraction, as in Rust release mode: the operands model u32
values (below 2^32). -/
def sub32 (a b : Nat) : Nat := (a + U32 - b % U32) % U32

/-- Modelled from the spec: `SttsEntry { sample_count: u32, sample_delta: u32 }`
(registry module is not in src/). -/
structure SttsEntry where
  sample_count : Nat
  sample_delta : Nat
deriving DecidableEq

/-- Modelled from the spec: `SttsData` holds the decoded stts entries. -/
structure SttsData where
  entries : List SttsEntry
deriving DecidableEq

/-- Modelled from the spec: `CttsEntry { sample_count: u32, sample_offset: i32 }`. -/
structure CttsEntry where
  sample_count : Nat
  sample_offset : Int
deriving DecidableEq

/-- Modelled from the spec: `CttsData` holds the decoded ctts entries. -/
structure CttsData where
  entries : List CttsEntry
deriving DecidableEq

/-- Modelled from the spec: `StscEntry { first_chunk: u32 (1-based),
samples_per_chunk: u32, sample_description_index: u32 }`. -/
structure StscEntry where
  first_chunk : Nat
  samples_per_chunk : Nat
  sample_description_index : Nat
deriving DecidableEq

/-- Modelled from the spec: `StscData` holds the decoded stsc entries. -/
structure StscData where
  entries : List StscEntry
deriving DecidableEq

/-- Modelled from the spec: `StszData { sample_size: u32, sample_count: u32,
sample_sizes: Vec<u32> }`. -/
structure StszData where
  sample_size : Nat
  sample_count : Nat
  sample_sizes : List Nat
deriving DecidableEq

/-- Modelled from the spec: `StssData { sample_numbers: Vec<u32> }` (1-based). -/
structure StssData where
  sample_numbers : List Nat
deriving DecidableEq

/-- Modelled from the spec: `StcoData { chunk_offsets: Vec<u32> }`. -/
structure StcoData where
  chunk_offsets : List Nat
deriving DecidableEq

/-- Modelled from the spec: `Co64Data { chunk_offsets: Vec<u64> }`. -/
structure Co64Data where
  chunk_offsets : List Nat
deriving DecidableEq

/-- Modelled from the spec: stsd records an entry count plus raw sub-payloads;
only its presence matters to samples.rs, which never reads its fields. -/
structure StsdData where
  entry_count : Nat
deriving DecidableEq

/-- Modelled from the spec: `MdhdData { version, timescale: u32, duration: u64 }`. -/
structure MdhdData where
  version : Nat
  timescale : Nat
  duration : Nat
deriving DecidableEq

/-- Modelled from the spec: `HdlrData { handler_type }` as 4 ASCII bytes. -/
structure HdlrData where
  handler_type : String
deriving DecidableEq

/-- struct SampleTables (samples.rs lines 184-194): the structured payloads
collected from the children of an stbl box. -/
structure SampleTables where
  stsd : Option StsdData
  stts : Option SttsData
  ctts : Option CttsData
  stsc : Option StscData
  stsz : Option StszData
  stss : Option StssData
  stco : Option StcoData
  co64 : Option Co64Data
deriving DecidableEq

/-- struct SampleInfo (samples.rs lines 7-35). The f64 field start_time
(pts / timescale as f64) is floating point and outside this embedding; every
other field is carried. -/
structure SampleInfo where
  index : Nat
  dts : Nat
  pts : Nat
  duration : Nat
  rendered_offset : Int
  file_offset : Nat
  size : Nat
  is_sync : Bool
deriving DecidableEq

/-- struct TrackSamples (samples.rs lines 37-45). -/
structure TrackSamples where
  track_id : Nat
  handler_type : String
  timescale : Nat
  duration : Nat
  sample_count : Nat
  samples : List SampleInfo
deriving DecidableEq

/-- Loop body of get_sample_duration_from_stts (samples.rs lines 332-339):
scan the entries with a running u32 sample counter. -/
def sttsLookup : List SttsEntry → Nat → Nat → Option Nat
  | [], _, _ => none
  | e :: rest, i, cur =>
    if i < (cur + e.sample_count) % U32 then some e.sample_delta
    else sttsLookup rest i ((cur + e.sample_count) % U32)

/-- fn get_sample_duration_from_stts (samples.rs lines 328-343): find the stts
entry covering the sample, else fall back to the last entry. -/
def get_sample_duration_from_stts (stts : SttsData) (sample_index : Nat) : Option Nat :=
  match sttsLookup stts.entries sample_index 0 with
  | some d => some d
  | none => stts.entries.getLast?.map (fun e => e.sample_delta)

/-- Loop body of get_composition_offset_from_ctts (samples.rs lines 349-356). -/
def cttsLookup : List CttsEntry → Nat → Nat → Option Int
  | [], _, _ => none
  | e :: rest, i, cur =>
    if i < (cur + e.sample_count) % U32 then some e.sample_offset
    else cttsLookup rest i ((cur + e.sample_count) % U32)

/-- fn get_composition_offset_from_ctts (samples.rs lines 345-360): find the
ctts entry covering the sample, else Some(0). -/
def get_composition_offset_from_ctts (ctts : CttsData) (sample_index : Nat) : Option Int :=
  match cttsLookup ctts.entries sample_index 0 with
  | some o => some o
  | none => some 0

/-- fn get_sample_size (samples.rs lines 303-316). -/
def get_sample_size (stsz : Option StszData) (index : Nat) : Nat :=
  match stsz with
  | some stsz =>
    if stsz.sample_size > 0 then stsz.sample_size
    else
      match stsz.sample_sizes.get? index with
      | some s => s
      | none => 0
  | none => 0

/-- fn is_sync_sample (samples.rs lines 318-325): membership of the 1-based
sample number in stss, or true when stss is absent. -/
def is_sync_sample (stss : Option StssData) (sample_number : Nat) : Bool :=
  match stss with
  | some stss => stss.sample_numbers.contains sample_number
  | none => true

/-- The stsc scan of get_sample_file_offset (samples.rs lines 390-410).
State: remaining entries, running u32 sample counter (cur), last
samples_per_chunk (spc), chunk index (ci, stays 0 unless the break fires).
Returns (chunk_index, samples_per_chunk, current_sample) as left by the loop.
offsLen is chunk_offsets.len(). Rust panics on division by a zero
samples_per_chunk; Lean division by zero yields 0 instead. -/
def stscFind (offsLen target : Nat) : List StscEntry → Nat → Nat → Nat → Nat × Nat × Nat
  | [], cur, spc, ci => (ci, spc, cur)
  | e :: rest, cur, _, ci =>
    let nfc := match rest with
      | [] => (offsLen % U32 + 1) % U32
      | e2 :: _ => e2.first_chunk
    let spc2 := e.samples_per_chunk
    let cwc := sub32 nfc e.first_chunk
    let sir := cwc * spc2 % U32
    if target < (cur + sir) % U32 then
      let sor := sub32 target cur
      (sub32 e.first_chunk 1 + sor / spc2, spc2, cur)
    else
      stscFind offsLen target rest ((cur + sir) % U32) spc2 ci

/-- The variable-size accumulation of get_sample_file_offset (samples.rs lines
432-437): sum sizes at indices start..start+k, skipping out-of-range indices,
with u64 wrapping addition. -/
def varSizeSum (sizes : List Nat) (start k : Nat) : Nat :=
  (List.range k).foldl
    (fun acc i =>
      (acc + (if start + i < sizes.length then sizes.getD (start + i) 0 else 0)) % U64)
    0

/-- fn get_sample_file_offset (samples.rs lines 362-441). -/
def get_sample_file_offset (tables : SampleTables) (sample_index : Nat) : Nat :=
  match tables.stsc with
  | none => 0
  | some stsc =>
    match tables.stsz with
    | none => 0
    | some stsz =>
      let chunk_offsets : Option (List Nat) :=
        match tables.co64 with
        | some co64 => some co64.chunk_offsets
        | none =>
          match tables.stco with
          | some stco => some stco.chunk_offsets
          | none => none
      match chunk_offsets with
      | none => 0
      | some offs =>
        let target := (sample_index + 1) % U32
        let r := stscFind offs.length target stsc.entries 1 0 0
        let chunk_index := r.1
        let spc := r.2.1
        let cur := r.2.2
        if offs.length ≤ chunk_index then 0
        else
          let chunk_offset := offs.getD chunk_index 0
          let sample_in_chunk := sub32 target cur % spc
          let offset_in_chunk :=
            if stsz.sample_size > 0 then
              sample_in_chunk * stsz.sample_size % U64
            else if stsz.sample_sizes ≠ [] then
              varSizeSum stsz.sample_sizes cur sample_in_chunk
            else 0
          (chunk_offset + offset_in_chunk) % U64

/-- The default per-sample duration of build_sample_info (samples.rs line 264). -/
def default_duration (timescale : Nat) : Nat :=
  if timescale > 0 then timescale / 24 else 1000

/-- The per-sample duration choice of build_sample_info (samples.rs lines 269-273). -/
def sample_duration (tables : SampleTables) (timescale i : Nat) : Nat :=
  match tables.stts with
  | some stts => (get_sample_duration_from_stts stts i).getD (default_duration timescale)
  | none => default_duration timescale

/-- The per-sample composition offset choice of build_sample_info
(samples.rs lines 276-280). -/
def composition_offset (tables : SampleTables) (i : Nat) : Int :=
  match tables.ctts with
  | some ctts => (get_composition_offset_from_ctts ctts i).getD 0
  | none => 0

/-- One constructed SampleInfo of build_sample_info (samples.rs lines 282-294).
pts is `(current_dts as i64 + composition_offset as i64) as u64`, i.e. the
two's-complement value of dts + offset modulo 2^64. -/
def mkSample (tables : SampleTables) (timescale i dts : Nat) : SampleInfo :=
  let off := composition_offset tables i
  { index := i
    dts := dts
    pts := (((dts : Int) + off) % (U64 : Int)).toNat
    duration := sample_duration tables timescale i
    rendered_offset := off
    file_offset := get_sample_file_offset tables i
    size := get_sample_size tables.stsz i
    is_sync := is_sync_sample tables.stss (i + 1) }

/-- The sample loop of build_sample_info (samples.rs lines 267-298) with n
samples left to emit, next index i, and running dts. -/
def build_loop (tables : SampleTables) (timescale : Nat) : Nat → Nat → Nat → List SampleInfo
  | 0, _, _ => []
  | n + 1, i, dts =>
    mkSample tables timescale i dts ::
      build_loop tables timescale n (i + 1) ((dts + sample_duration tables timescale i) % U64)

/-- fn build_sample_info (samples.rs lines 248-301). The reader argument of the
Rust function is unused there and omitted. -/
def build_sample_info (tables : SampleTables) (timescale : Nat) : List SampleInfo :=
  match tables.stsz with
  | none => []
  | some stsz => build_loop tables timescale stsz.sample_count 0 0

/-- Modelled from the spec: enum StructuredData from the registry module
(not in src/), a closed tagged variant over the typed decodings; the variant
names follow their uses in samples.rs lines 212-239. -/
inductive StructuredData where
  | sampleDescription (d : StsdData)
  | decodingTimeToSample (d : SttsData)
  | compositionTimeToSample (d : CttsData)
  | sampleToChunk (d : StscData)
  | sampleSize (d : StszData)
  | syncSample (d : StssData)
  | chunkOffset (d : StcoData)
  | chunkOffset64 (d : Co64Data)
  | mediaHeader (d : MdhdData)
  | handlerReference (d : HdlrData)

/-- Modelled from the spec: the decoded box-tree node crate::Box as used by
samples.rs, carrying a type tag, optional children, an optional decoded text
and an optional structured payload. The children vector is represented as
List Box through a nested inductive. -/
inductive Box where
  | mk (typ : String) (children : Option (List Box)) (decoded : Option String)
      (structured_data : Option StructuredData)

/-- The type tag of a box. -/
def Box.typ : Box → String
  | .mk t _ _ _ => t

/-- The children of a box. -/
def Box.children : Box → Option (List Box)
  | .mk _ c _ _ => c

/-- The decoded text of a box. -/
def Box.decoded : Box → Option String
  | .mk _ _ d _ => d

/-- The structured payload of a box. -/
def Box.structured_data : Box → Option StructuredData
  | .mk _ _ _ s => s

/-- Loop of fn find_track_id (samples.rs lines 112-120): return 1 at the first
tkhd child with a decoded value. -/
def findTrackIdLoop : List Box → Except String Nat
  | [] => .ok 1
  | c :: rest =>
    if c.typ == "tkhd" && c.decoded.isSome then .ok 1
    else findTrackIdLoop rest

/-- fn find_track_id (samples.rs lines 110-122): both the tkhd branch and the
fallthrough return Ok(1); the tkhd payload is never parsed. -/
def find_track_id (trak : Box) : Except String Nat :=
  match trak.children with
  | some cs => findTrackIdLoop cs
  | none => .ok 1

/-- Inner loop of fn find_media_info (samples.rs lines 137-151): fold the mdia
children, letting later mdhd and hdlr boxes overwrite earlier values. -/
def findMediaInfoInner : List Box → String → Nat → Nat → String × Nat × Nat
  | [], h, ts, d => (h, ts, d)
  | c :: rest, h, ts, d =>
    let tsd :=
      if c.typ == "mdhd" then
        match c.structured_data with
        | some (.mediaHeader md) => (md.timescale, md.duration)
        | _ => (ts, d)
      else (ts, d)
    let h2 :=
      if c.typ == "hdlr" then
        match c.structured_data with
        | some (.handlerReference hd) => hd.handler_type
        | _ => h
      else h
    findMediaInfoInner rest h2 tsd.1 tsd.2

/-- Outer loop of fn find_media_info (samples.rs lines 128-155): the first mdia
child with children decides; defaults are ("vide", 1000, 0). -/
def findMediaInfoOuter : List Box → String × Nat × Nat
  | [] => ("vide", 1000, 0)
  | c :: rest =>
    if c.typ == "mdia" then
      match c.children with
      | some mcs => findMediaInfoInner mcs "vide" 1000 0
      | none => findMediaInfoOuter rest
    else findMediaInfoOuter rest

/-- fn find_media_info (samples.rs lines 124-158): handler type, timescale and
duration of the track. -/
def find_media_info (trak : Box) : String × Nat × Nat :=
  match trak.children with
  | some cs => findMediaInfoOuter cs
  | none => ("vide", 1000, 0)

/-- Innermost loop of fn find_stbl_box (samples.rs lines 171-175): first stbl
among minf children. -/
def stblInMinf : List Box → Option Box
  | [] => none
  | c :: rest => if c.typ == "stbl" then some c else stblInMinf rest

/-- Middle loop of fn find_stbl_box (samples.rs lines 167-177): scan mdia
children for a minf holding an stbl. -/
def stblInMdia : List Box → Option Box
  | [] => none
  | c :: rest =>
    if c.typ == "minf" then
      match c.children with
      | some mcs =>
        match stblInMinf mcs with
        | some b => some b
        | none => stblInMdia rest
      | none => stblInMdia rest
    else stblInMdia rest

/-- Outer loop of fn find_stbl_box (samples.rs lines 162-179): scan trak
children for an mdia holding a minf holding an stbl. -/
def stblInTrak : List Box → Option Box
  | [] => none
  | c :: rest =>
    if c.typ == "mdia" then
      match c.children with
      | some mcs =>
        match stblInMdia mcs with
        | some b => some b
        | none => stblInTrak rest
      | none => stblInTrak rest
    else stblInTrak rest

/-- fn find_stbl_box (samples.rs lines 160-182): navigate mdia/minf/stbl or
bail with "stbl box not found". -/
def find_stbl_box (trak : Box) : Except String Box :=
  match trak.children with
  | some cs =>
    match stblInTrak cs with
    | some b => .ok b
    | none => .error "stbl box not found"
  | none => .error "stbl box not found"

/-- The empty SampleTables record (samples.rs lines 197-206). -/
def emptyTables : SampleTables :=
  { stsd := none, stts := none, ctts := none, stsc := none
    stsz := none, stss := none, stco := none, co64 := none }

/-- One step of fn extract_sample_tables (samples.rs lines 210-242): a child
with a structured payload sets the matching table slot. -/
def tablesStep (tables : SampleTables) (c : Box) : SampleTables :=
  match c.structured_data with
  | some sd =>
    match sd with
    | .sampleDescription d => { tables with stsd := some d }
    | .decodingTimeToSample d => { tables with stts := some d }
    | .compositionTimeToSample d => { tables with ctts := some d }
    | .sampleToChunk d => { tables with stsc := some d }
    | .sampleSize d => { tables with stsz := some d }
    | .syncSample d => { tables with stss := some d }
    | .chunkOffset d => { tables with stco := some d }
    | .chunkOffset64 d => { tables with co64 := some d }
    | .mediaHeader _ => tables
    | .handlerReference _ => tables
  | none => tables

/-- fn extract_sample_tables (samples.rs lines 196-246); the Rust function
always returns Ok. -/
def extract_sample_tables (stbl : Box) : SampleTables :=
  match stbl.children with
  | some cs => cs.foldl tablesStep emptyTables
  | none => emptyTables

/-- fn extract_track_samples (samples.rs lines 78-108): assemble a
TrackSamples for one trak box; errors of find_stbl_box propagate. -/
def extract_track_samples (trak : Box) : Except String (Option TrackSamples) :=
  match find_track_id trak with
  | .error e => .error e
  | .ok track_id =>
    let mi := find_media_info trak
    match find_stbl_box trak with
    | .error e => .error e
    | .ok stbl =>
      let tables := extract_sample_tables stbl
      let samples := build_sample_info tables mi.2.1
      .ok (some
        { track_id := track_id
          handler_type := mi.1
          timescale := mi.2.1
          duration := mi.2.2
          sample_count := samples.length
          samples := samples })

/-- The trak loop of fn track_samples_from_reader (samples.rs lines 60-66):
extract each trak child; an error aborts, Ok(None) is skipped. -/
def traksResult : List Box → Except String (List TrackSamples)
  | [] => .ok []
  | t :: rest =>
    if t.typ == "trak" then
      match extract_track_samples t with
      | .error e => .error e
      | .ok (some ts) =>
        match traksResult rest with
        | .ok l => .ok (ts :: l)
        | .error e => .error e
      | .ok none => traksResult rest
    else traksResult rest

/-- The moov loop of fn track_samples_from_reader (samples.rs lines 58-68). -/
def moovsResult : List Box → Except String (List TrackSamples)
  | [] => .ok []
  | b :: rest =>
    if b.typ == "moov" then
      match b.children with
      | some cs =>
        match traksResult cs with
        | .error e => .error e
        | .ok l =>
          match moovsResult rest with
          | .ok l2 => .ok (l ++ l2)
          | .error e => .error e
      | none => moovsResult rest
    else moovsResult rest

/-- fn track_samples_from_reader (samples.rs lines 47-71) after the call to
crate::get_boxes (parsing code not in src/): the walk over the parsed
top-level boxes that collects per-track samples, propagating errors. -/
def track_samples_from_boxes (boxes : List Box) : Except String (List TrackSamples) :=
  moovsResult boxes

/-- Spec-side predicate, from the words of the claim: the trak subtree contains
an mdia/minf/stbl path. Written independently of the search in find_stbl_box. -/
def hasStblPath (trak : Box) : Bool :=
  match trak.children with
  | some cs =>
    cs.any fun m =>
      m.typ == "mdia" &&
        (match m.children with
         | some ms =>
           ms.any fun n =>
             n.typ == "minf" &&
               (match n.children with
                | some ls => ls.any fun s => s.typ == "stbl"
                | none => false)
         | none => false)
  | none => false

/-- Modelled from the spec: struct BoxHeader (boxes module not in src/):
`{ typ, uuid, start, size, header_size }`. FourCC is modelled as its String
rendering; uuid as the 16 raw bytes. -/
structure BoxHeader where
  typ : String
  uuid : Option (List Nat)
  start : Nat
  size : Nat
  header_size : Nat

/-- Modelled from the spec: BoxKey = FourCC | Uuid, the registry dispatch key. -/
inductive BoxKey where
  | fourCC (s : String)
  | uuid (u : List Nat)

/-- enum BoxValue (registry module not in src/): Text or Bytes as consumed by
decode_value in json_api.rs; the structured variant never reaches
decode_value and is omitted here. -/
inductive BoxValue where
  | text (s : String)
  | bytes (bs : List Nat)

mutual
/-- Modelled from the spec: struct BoxRef = header plus NodeKind, with the
NodeKind variants (Container, FullBox, Leaf, Unknown) flattened into the
constructors; the Vec of children is the mutual list type BoxRefList. -/
inductive BoxRef where
  | container (hdr : BoxHeader) (kids : BoxRefList)
  | fullBox (hdr : BoxHeader) (version : Nat) (flags : Nat)
      (data_offset : Nat) (data_len : Nat)
  | leaf (hdr : BoxHeader) (data_offset : Nat) (data_len : Nat)
  | unknown (hdr : BoxHeader) (data_offset : Nat) (data_len : Nat)

/-- A vector of BoxRef nodes. -/
inductive BoxRefList where
  | nil
  | cons (b : BoxRef) (rest : BoxRefList)
end

/-- The header of a BoxRef. -/
def BoxRef.hdr : BoxRef → BoxHeader
  | .container h _ => h
  | .fullBox h _ _ _ _ => h
  | .leaf h _ _ => h
  | .unknown h _ _ => h

mutual
/-- struct JsonBox (json_api.rs lines 14-26), with the children vector as the
mutual list type JsonList. -/
inductive JsonBox where
  | mk (offset : Nat) (size : Nat) (typ : String) (uuid : Option String)
      (version : Option Nat) (flags : Option Nat) (kind : String)
      (full_name : String) (decoded : Option String)
      (children : Option JsonList)

/-- A vector of JsonBox nodes. -/
inductive JsonList where
  | nil
  | cons (b : JsonBox) (rest : JsonList)
end

/-- The decoded field of a JsonBox. -/
def JsonBox.decoded : JsonBox → Option String
  | .mk _ _ _ _ _ _ _ _ d _ => d

/-- The typ field of a JsonBox. -/
def JsonBox.typ : JsonBox → String
  | .mk _ _ t _ _ _ _ _ _ _ => t

/-- The children field of a JsonBox. -/
def JsonBox.children : JsonBox → Option JsonList
  | .mk _ _ _ _ _ _ _ _ _ c => c

/-- Modelled from the spec: the decoder registry (C4, registry module not in
src/) maps a box key to a decoder whose run on the payload of the box with
the given header yields text, bytes or a decode error; None means no decoder
is registered. The payload bytes themselves are abstracted into the
function. -/
def Registry : Type := BoxKey → BoxHeader → Option (Except String BoxValue)

/-- One byte as two lowercase hex digits, as format "{:02x}" on a u8; the core
function Nat.digitChar yields the lowercase hex digit of a value below 16. -/
def byteToHex (b : Nat) : String :=
  String.mk [Nat.digitChar (b % 256 / 16), Nat.digitChar (b % 16)]

/-- The uuid rendering of build_json_for_box (json_api.rs lines 144-148). -/
def bytesToHex (bs : List Nat) : String :=
  String.join (bs.map byteToHex)

/-- fn payload_region (json_api.rs lines 82-109): the registry key plus the
payload window of a box, None for containers and empty payloads. The Rust
unwrap of the uuid bytes is modelled with a default (a uuid box always
carries them). -/
def payload_region (b : BoxRef) : Option (BoxKey × Nat × Nat) :=
  let key :=
    if b.hdr.typ == "uuid" then BoxKey.uuid (b.hdr.uuid.getD [])
    else BoxKey.fourCC b.hdr.typ
  match b with
  | .fullBox _ _ _ data_offset data_len => some (key, data_offset, data_len)
  | .leaf hdr _ _ =>
    if hdr.size = 0 then none
    else
      let off := hdr.start + hdr.header_size
      let len := hdr.size - hdr.header_size
      if len = 0 then none else some (key, off, len)
  | .unknown hdr _ _ =>
    if hdr.size = 0 then none
    else
      let off := hdr.start + hdr.header_size
      let len := hdr.size - hdr.header_size
      if len = 0 then none else some (key, off, len)
  | .container _ _ => none

/-- fn decode_value (json_api.rs lines 111-135): run the registered decoder on
the payload region; a decode error becomes the text "[decode error: ...]". -/
def decode_value (reg : Registry) (b : BoxRef) : Option String :=
  match payload_region b with
  | none => none
  | some (key, _, len) =>
    if len = 0 then none
    else
      match reg key b.hdr with
      | some (.ok (.text s)) => some s
      | some (.ok (.bytes bs)) => some (toString bs.length ++ " bytes")
      | some (.error e) => some ("[decode error: " ++ e ++ "]")
      | none => none

mutual
/-- fn build_json_for_box (json_api.rs lines 137-189), parametrized by the
registry and by the known-box catalog full-name function (known_boxes module
not in src/). Total: every box yields a JsonBox. -/
def build_json_for_box (reg : Registry) (fullName : String → String)
    (decode : Bool) : BoxRef → JsonBox
  | .container hdr kids =>
    let children := build_json_list reg fullName decode kids
    JsonBox.mk hdr.start hdr.size hdr.typ (hdr.uuid.map bytesToHex)
      none none "container" (fullName hdr.typ)
      (if decode then decode_value reg (.container hdr kids) else none)
      (some children)
  | .fullBox hdr version flags data_offset data_len =>
    JsonBox.mk hdr.start hdr.size hdr.typ (hdr.uuid.map bytesToHex)
      (some version) (some flags) "full" (fullName hdr.typ)
      (if decode then decode_value reg (.fullBox hdr version flags data_offset data_len)
       else none)
      none
  | .leaf hdr data_offset data_len =>
    JsonBox.mk hdr.start hdr.size hdr.typ (hdr.uuid.map bytesToHex)
      none none "leaf" (fullName hdr.typ)
      (if decode then decode_value reg (.leaf hdr data_offset data_len) else none)
      none
  | .unknown hdr data_offset data_len =>
    JsonBox.mk hdr.start hdr.size hdr.typ (hdr.uuid.map bytesToHex)
      none none "unknown" (fullName hdr.typ)
      (if decode then decode_value reg (.unknown hdr data_offset data_len) else none)
      none

/-- The children map of build_json_for_box over a box vector. -/
def build_json_list (reg : Registry) (fullName : String → String)
    (decode : Bool) : BoxRefList → JsonList
  | .nil => .nil
  | .cons b rest =>
    .cons (build_json_for_box reg fullName decode b)
      (build_json_list reg fullName decode rest)
end

mutual
/-- Preorder list of the box types in a BoxRef subtree. -/
def boxTypes : BoxRef → List String
  | .container hdr kids => hdr.typ :: boxListTypes kids
  | .fullBox hdr _ _ _ _ => [hdr.typ]
  | .leaf hdr _ _ => [hdr.typ]
  | .unknown hdr _ _ => [hdr.typ]

/-- Preorder list of the box types in a BoxRef vector. -/
def boxListTypes : BoxRefList → List String
  | .nil => []
  | .cons b rest => boxTypes b ++ boxListTypes rest
end

mutual
/-- Preorder list of the typ fields in a JsonBox subtree. -/
def jsonTypes : JsonBox → List String
  | .mk _ _ t _ _ _ _ _ _ children =>
    t :: (match children with
          | some l => jsonListTypes l
          | none => [])

/-- Preorder list of the typ fields in a JsonList. -/
def jsonListTypes : JsonList → List String
  | .nil => []
  | .cons b rest => jsonTypes b ++ jsonListTypes rest
end

/-! ## Helper lemmas -/

/-- Every branch of the find_track_id loop returns Ok(1). -/
lemma findTrackIdLoop_eq_one (l : List Box) : findTrackIdLoop l = .ok 1 := by
  induction l with
  | nil => rfl
  | cons c rest ih =>
    unfold findTrackIdLoop
    split <;> simp [ih]

/-- find_track_id returns Ok(1) on every trak box. -/
lemma find_track_id_eq_one (trak : Box) : find_track_id trak = .ok 1 := by
  unfold find_track_id
  cases trak.children with
  | none => rfl
  | some cs => exact findTrackIdLoop_eq_one cs

/-- Running decode-time accumulator of the sample loop: the dts of the sample
emitted j iterations after the state (i, dts). -/
def dts_from (tables : SampleTables) (timescale : Nat) : Nat → Nat → Nat → Nat
  | dts, _, 0 => dts
  | dts, i, j + 1 =>
    dts_from tables timescale ((dts + sample_duration tables timescale i) % U64) (i + 1) j

/-- Unfolding of dts_from at the far end of the run. -/
lemma dts_from_succ (tables : SampleTables) (ts : Nat) :
    ∀ j dts i, dts_from tables ts dts i (j + 1) =
      (dts_from tables ts dts i j + sample_duration tables ts (i + j)) % U64 := by
  intro j
  induction j with
  | zero => intro dts i; simp [dts_from]
  | succ j ih =>
    intro dts i
    show dts_from tables ts _ (i + 1) (j + 1) = _
    rw [ih]
    simp [dts_from, Nat.add_assoc, Nat.add_comm 1 j]

/-- The sample loop emits exactly n samples. -/
lemma build_loop_length (tables : SampleTables) (ts : Nat) :
    ∀ n i dts, (build_loop tables ts n i dts).length = n := by
  intro n
  induction n with
  | zero => intro i dts; rfl
  | succ n ih => intro i dts; simp [build_loop, ih]

/-- Characterization of the j-th sample emitted by the loop started at
state (i, dts). -/
lemma build_loop_get? (tables : SampleTables) (ts : Nat) :
    ∀ n j i dts, j < n → (build_loop tables ts n i dts).get? j =
      some (mkSample tables ts (i + j) (dts_from tables ts dts i j)) := by
  intro n
  induction n with
  | zero => intro j i dts h; omega
  | succ n ih =>
    intro j i dts h
    cases j with
    | zero => simp [build_loop, dts_from]
    | succ j =>
      have hj : j < n := by omega
      simp only [build_loop, List.get?_cons_succ]
      rw [ih j (i + 1) ((dts + sample_duration tables ts i) % U64) hj]
      have : i + 1 + j = i + (j + 1) := by omega
      rw [this]
      rfl

/-- The dts of the j-th sample of a track, counted from the initial state. -/
def dtsAt (tables : SampleTables) (ts j : Nat) : Nat :=
  dts_from tables ts 0 0 j

/-- Characterization of the j-th sample of build_sample_info. -/
lemma build_sample_info_get? (tables : SampleTables) (ts : Nat) (stsz : StszData)
    (hz : tables.stsz = some stsz) (j : Nat) (hj : j < stsz.sample_count) :
    (build_sample_info tables ts).get? j = some (mkSample tables ts j (dtsAt tables ts j)) := by
  unfold build_sample_info
  rw [hz]
  have := build_loop_get? tables ts stsz.sample_count j 0 0 hj
  simpa [dtsAt] using this

/-- Length of the emitted sample list. -/
lemma build_sample_info_length (tables : SampleTables) (ts : Nat) (stsz : StszData)
    (hz : tables.stsz = some stsz) :
    (build_sample_info tables ts).length = stsz.sample_count := by
  unfold build_sample_info
  rw [hz]
  exact build_loop_length tables ts stsz.sample_count 0 0

/-- The dts recurrence with the u64 wrap of the loop. -/
lemma dtsAt_succ_mod (tables : SampleTables) (ts j : Nat) :
    dtsAt tables ts (j + 1) = (dtsAt tables ts j + sample_duration tables ts j) % U64 := by
  unfold dtsAt
  rw [dts_from_succ]
  simp

/-- The dts at index 0 is 0. -/
lemma dtsAt_zero (tables : SampleTables) (ts : Nat) : dtsAt tables ts 0 = 0 := rfl

/-- Under per-sample duration bounds, the accumulated dts stays below
j * (2^32 - 1), so the u64 addition in the loop never wraps. -/
lemma dtsAt_bound (tables : SampleTables) (ts : Nat)
    (hdur : ∀ i, sample_duration tables ts i < U32) :
    ∀ j, j ≤ U32 → dtsAt tables ts j ≤ j * (U32 - 1) := by
  intro j
  induction j with
  | zero => intro _; simp [dtsAt, dts_from]
  | succ j ih =>
    intro hj
    have hb := ih (by omega)
    have hd : sample_duration tables ts j ≤ U32 - 1 := by
      have := hdur j
      omega
    have hsum : dtsAt tables ts j + sample_duration tables ts j ≤ (j + 1) * (U32 - 1) := by
      calc dtsAt tables ts j + sample_duration tables ts j
          ≤ j * (U32 - 1) + (U32 - 1) := Nat.add_le_add hb hd
        _ = (j + 1) * (U32 - 1) := by ring
    have hlt : (j + 1) * (U32 - 1) < U64 := by
      have h1 : (j + 1) * (U32 - 1) ≤ U32 * (U32 - 1) :=
        Nat.mul_le_mul_right _ (by omega)
      have h2 : U32 * (U32 - 1) < U64 := by norm_num [U32, U64]
      omega
    rw [dtsAt_succ_mod, Nat.mod_eq_of_lt (by omega)]
    omega

/-- Under per-sample duration bounds and a u32 sample index, the dts recurrence
holds without wrapping. -/
lemma dtsAt_succ (tables : SampleTables) (ts : Nat)
    (hdur : ∀ i, sample_duration tables ts i < U32) (j : Nat) (hj : j + 1 ≤ U32) :
    dtsAt tables ts (j + 1) = dtsAt tables ts j + sample_duration tables ts j := by
  have hb := dtsAt_bound tables ts hdur j (by omega)
  have hd : sample_duration tables ts j ≤ U32 - 1 := by
    have := hdur j
    omega
  have hlt : dtsAt tables ts j + sample_duration tables ts j < U64 := by
    have h1 : (j + 1) * (U32 - 1) ≤ U32 * (U32 - 1) :=
      Nat.mul_le_mul_right _ (by omega)
    have h2 : U32 * (U32 - 1) < U64 := by norm_num [U32, U64]
    have h3 : dtsAt tables ts j + sample_duration tables ts j ≤ (j + 1) * (U32 - 1) := by
      calc dtsAt tables ts j + sample_duration tables ts j
          ≤ j * (U32 - 1) + (U32 - 1) := Nat.add_le_add hb hd
        _ = (j + 1) * (U32 - 1) := by ring
    omega
  rw [dtsAt_succ_mod, Nat.mod_eq_of_lt hlt]

/-- Every sample produced by the loop is a mkSample at some index and dts. -/
lemma mem_build_loop (tables : SampleTables) (ts : Nat) :
    ∀ n i dts s, s ∈ build_loop tables ts n i dts →
      ∃ j d0, s = mkSample tables ts j d0 := by
  intro n
  induction n with
  | zero => intro i dts s h; simp [build_loop] at h
  | succ n ih =>
    intro i dts s h
    simp only [build_loop, List.mem_cons] at h
    cases h with
    | inl h => exact ⟨i, dts, h⟩
    | inr h => exact ih _ _ s h

/-- The index field of an emitted sample. -/
lemma mkSample_index (tables : SampleTables) (ts i dts : Nat) :
    (mkSample tables ts i dts).index = i := rfl

/-- The dts field of an emitted sample. -/
lemma mkSample_dts (tables : SampleTables) (ts i dts : Nat) :
    (mkSample tables ts i dts).dts = dts := rfl

/-- The duration field of an emitted sample. -/
lemma mkSample_duration (tables : SampleTables) (ts i dts : Nat) :
    (mkSample tables ts i dts).duration = sample_duration tables ts i := rfl

/-- The is_sync field of an emitted sample. -/
lemma mkSample_is_sync (tables : SampleTables) (ts i dts : Nat) :
    (mkSample tables ts i dts).is_sync = is_sync_sample tables.stss (i + 1) := rfl

/-- Without an stsz table no samples are emitted. -/
lemma build_sample_info_of_stsz_none (tables : SampleTables) (ts : Nat)
    (hz : tables.stsz = none) : build_sample_info tables ts = [] := by
  unfold build_sample_info
  rw [hz]

/-- When no minf child is an stbl, the innermost search fails. -/
lemma stblInMinf_eq_none (l : List Box)
    (h : (l.any fun c => c.typ == "stbl") = false) : stblInMinf l = none := by
  induction l with
  | nil => rfl
  | cons c rest ih =>
    simp only [List.any_cons, Bool.or_eq_false_iff] at h
    unfold stblInMinf
    rw [h.1]
    exact ih h.2

/-- When no mdia child holds an stbl through a minf, the middle search fails. -/
lemma stblInMdia_eq_none (l : List Box)
    (h : (l.any fun c =>
      c.typ == "minf" &&
        (match c.children with
         | some ls => ls.any fun s => s.typ == "stbl"
         | none => false)) = false) : stblInMdia l = none := by
  induction l with
  | nil => rfl
  | cons c rest ih =>
    simp only [List.any_cons, Bool.or_eq_false_iff] at h
    unfold stblInMdia
    by_cases hm : c.typ == "minf"
    · rw [hm, if_pos rfl]
      simp only [hm, Bool.true_and] at h
      cases hc : c.children with
      | none => exact ih h.2
      | some mcs =>
        rw [hc] at h
        show (match stblInMinf mcs with
              | some b => some b
              | none => stblInMdia rest) = none
        rw [stblInMinf_eq_none mcs h.1]
        exact ih h.2
    · simp only [Bool.not_eq_true] at hm
      rw [hm, if_neg (by simp)]
      exact ih h.2

/-- When no trak child holds an stbl through mdia/minf, the outer search fails. -/
lemma stblInTrak_eq_none (l : List Box)
    (h : (l.any fun m =>
      m.typ == "mdia" &&
        (match m.children with
         | some ms =>
           ms.any fun n =>
             n.typ == "minf" &&
               (match n.children with
                | some ls => ls.any fun s => s.typ == "stbl"
                | none => false)
         | none => false)) = false) : stblInTrak l = none := by
  induction l with
  | nil => rfl
  | cons c rest ih =>
    simp only [List.any_cons, Bool.or_eq_false_iff] at h
    unfold stblInTrak
    by_cases hm : c.typ == "mdia"
    · rw [hm, if_pos rfl]
      simp only [hm, Bool.true_and] at h
      cases hc : c.children with
      | none => exact ih h.2
      | some mcs =>
        rw [hc] at h
        show (match stblInMdia mcs with
              | some b => some b
              | none => stblInTrak rest) = none
        rw [stblInMdia_eq_none mcs h.1]
        exact ih h.2
    · simp only [Bool.not_eq_true] at hm
      rw [hm, if_neg (by simp)]
      exact ih h.2

/-- A trak subtree with no mdia/minf/stbl path makes find_stbl_box bail. -/
lemma find_stbl_box_of_no_path (trak : Box) (h : hasStblPath trak = false) :
    find_stbl_box trak = .error "stbl box not found" := by
  unfold find_stbl_box
  unfold hasStblPath at h
  cases hc : trak.children with
  | none => rfl
  | some cs =>
    rw [hc] at h
    show (match stblInTrak cs with
          | some b => Except.ok b
          | none => Except.error "stbl box not found") = Except.error "stbl box not found"
    rw [stblInTrak_eq_none cs h]

/-- The decoded field of the produced JsonBox is decode_value when decoding is
requested. -/
lemma build_json_decoded (reg : Registry) (fn : String → String) (dec : Bool)
    (b : BoxRef) :
    (build_json_for_box reg fn dec b).decoded =
      (if dec then decode_value reg b else none) := by
  cases b <;> rfl

mutual
/-- The JSON projection preserves the preorder type list of every subtree. -/
lemma jsonTypes_build (reg : Registry) (fn : String → String) (d : Bool) :
    ∀ b : BoxRef, jsonTypes (build_json_for_box reg fn d b) = boxTypes b
  | .container hdr kids => by
    simp [build_json_for_box, jsonTypes, boxTypes,
      jsonListTypes_build reg fn d kids]
  | .fullBox hdr v fl o l => by simp [build_json_for_box, jsonTypes, boxTypes]
  | .leaf hdr o l => by simp [build_json_for_box, jsonTypes, boxTypes]
  | .unknown hdr o l => by simp [build_json_for_box, jsonTypes, boxTypes]

/-- The JSON projection preserves the preorder type list of every box vector. -/
lemma jsonListTypes_build (reg : Registry) (fn : String → String) (d : Bool) :
    ∀ l : BoxRefList, jsonListTypes (build_json_list reg fn d l) = boxListTypes l
  | .nil => rfl
  | .cons b rest => by
    simp [build_json_list, jsonListTypes, boxListTypes,
      jsonTypes_build reg fn d b, jsonListTypes_build reg fn d rest]
end

/-! ## Claims -/

/-- Sample tables of scenario S5: stts=[(3,100)], ctts=[(3,-50)],
stsc=[(1,3,1)], stsz fixed size 1 count 3, stco=[0]. -/
def cTablesC1 : SampleTables :=
  ⟨none, some ⟨[⟨3, 100⟩]⟩, some ⟨[⟨3, -50⟩]⟩, some ⟨[⟨1, 3, 1⟩]⟩,
    some ⟨1, 3, []⟩, none, some ⟨[0]⟩, none⟩

/-- C1: the claim states pts_i = dts_i + offset_i saturated to be nonnegative,
so dts 0 with ctts offset -50 would give pts 0. The code instead casts the
signed sum to u64, which wraps: on scenario S5 the emitted pts values are
[2^64 - 50, 50, 150], with dts [0, 100, 200] and rendered offsets -50. -/
theorem claim_C1_pts_wraps :
    (build_sample_info cTablesC1 1000).map (fun s => s.pts) =
      [18446744073709551566, 50, 150] ∧
    (build_sample_info cTablesC1 1000).map (fun s => s.dts) = [0, 100, 200] ∧
    (build_sample_info cTablesC1 1000).map (fun s => s.rendered_offset) =
      [-50, -50, -50] := by
  decide

/-- Sample tables with one chunk of two variable-size samples:
stsc=[(1,2,1)], stco=[100], stsz sizes [10, 20]. -/
def cTablesC2 : SampleTables :=
  ⟨none, none, none, some ⟨[⟨1, 2, 1⟩]⟩, some ⟨0, 2, [10, 20]⟩, none,
    some ⟨[100]⟩, none⟩

/-- C2: the claim states each sample starts at its chunk offset plus the sizes
of the samples preceding it in the same chunk; for sample 1 of a chunk at 100
holding sizes [10, 20] that is 100 + 10 = 110. The code indexes the size table
with the 1-based running counter, summing size 20 instead, and returns 120. -/
theorem claim_C2_variable_size_offset_wrong :
    get_sample_file_offset cTablesC2 0 = 100 ∧
    get_sample_file_offset cTablesC2 1 = 120 ∧
    get_sample_file_offset cTablesC2 1 ≠ 100 + 10 := by
  decide

/-- Concrete stbl with no structured children. -/
def cStbl3 : Box := Box.mk "stbl" (some []) none none

/-- Concrete trak holding mdia/minf/stbl but no sample tables at all. -/
def cTrak3 : Box :=
  Box.mk "trak"
    (some [Box.mk "mdia" (some [Box.mk "minf" (some [cStbl3]) none none]) none none])
    none none

/-- C3 counterexample: on a trak whose stbl lacks stsz (and stsc),
extract_track_samples does not return None; it returns Some TrackSamples with
zero samples. -/
theorem claim_C3_counterexample :
    extract_track_samples cTrak3 = .ok (some ⟨1, "vide", 1000, 0, 0, []⟩) ∧
    extract_track_samples cTrak3 ≠ .ok none :=
  ⟨rfl, fun h => Option.noConfusion (Except.ok.inj h)⟩

/-- C3 amended: a missing stsz does not skip the track; the track yields
Ok(Some) with an empty sample list, and a missing stsc does not skip samples
either, every file offset just degrades to 0. -/
theorem claim_C3_missing_tables_not_skipped :
    (∀ trak stbl, find_stbl_box trak = .ok stbl →
      (extract_sample_tables stbl).stsz = none →
      extract_track_samples trak =
        .ok (some ⟨1, (find_media_info trak).1, (find_media_info trak).2.1,
          (find_media_info trak).2.2, 0, []⟩)) ∧
    (∀ tables i, tables.stsc = none → get_sample_file_offset tables i = 0) := by
  constructor
  · intro trak stbl hstbl hz
    unfold extract_track_samples
    rw [find_track_id_eq_one trak]
    show (match find_stbl_box trak with
          | .error e => Except.error e
          | .ok stbl => _) = _
    rw [hstbl]
    show Except.ok (some
      (⟨1, (find_media_info trak).1, (find_media_info trak).2.1,
        (find_media_info trak).2.2,
        (build_sample_info (extract_sample_tables stbl) (find_media_info trak).2.1).length,
        build_sample_info (extract_sample_tables stbl) (find_media_info trak).2.1⟩ :
        TrackSamples)) =
      Except.ok (some
        (⟨1, (find_media_info trak).1, (find_media_info trak).2.1,
          (find_media_info trak).2.2, 0, []⟩ : TrackSamples))
    rw [build_sample_info_of_stsz_none _ _ hz]
    rfl
  · intro tables i h
    unfold get_sample_file_offset
    rw [h]

/-- C3 witness: the amended statement applied to the concrete trak above. -/
theorem claim_C3_witness :
    extract_track_samples cTrak3 =
      .ok (some ⟨1, (find_media_info cTrak3).1, (find_media_info cTrak3).2.1,
        (find_media_info cTrak3).2.2, 0, []⟩) :=
  claim_C3_missing_tables_not_skipped.1 cTrak3 cStbl3 rfl rfl

/-- Concrete trak with no children below it, hence no stbl. -/
def cTrak4 : Box := Box.mk "trak" (some []) none none

/-- Concrete trak with no child list at all, hence no stbl. -/
def cTrak4b : Box := Box.mk "trak" none none none

/-- C4 counterexample: a trak with no mdia/minf/stbl makes
extract_track_samples return an error, not Ok(None). -/
theorem claim_C4_counterexample :
    extract_track_samples cTrak4 = .error "stbl box not found" ∧
    extract_track_samples cTrak4 ≠ .ok none :=
  ⟨rfl, fun h => Except.noConfusion h⟩

/-- C4 amended: a trak with no mdia/minf/stbl path makes extract_track_samples
fail with "stbl box not found", and the track walk propagates that error, so
the whole analysis fails instead of returning the remaining tracks. -/
theorem claim_C4_missing_stbl_is_error :
    (∀ trak, hasStblPath trak = false →
      extract_track_samples trak = .error "stbl box not found") ∧
    (∀ trak, trak.typ = "trak" → hasStblPath trak = false →
      track_samples_from_boxes [Box.mk "moov" (some [trak]) none none] =
        .error "stbl box not found") := by
  have hext : ∀ trak, hasStblPath trak = false →
      extract_track_samples trak = .error "stbl box not found" := by
    intro trak h
    unfold extract_track_samples
    rw [find_track_id_eq_one trak]
    show (match find_stbl_box trak with
          | .error e => Except.error e
          | .ok stbl => _) = _
    rw [find_stbl_box_of_no_path trak h]
  refine ⟨hext, ?_⟩
  intro trak htyp h
  show moovsResult [Box.mk "moov" (some [trak]) none none] = _
  unfold moovsResult
  show (match traksResult [trak] with
        | .error e => Except.error e
        | .ok l => _) = _
  unfold traksResult
  have ht : (trak.typ == "trak") = true := by
    rw [htyp]
    rfl
  rw [ht, if_pos rfl, hext trak h]

/-- C4 witness: the amended statement applied to the concrete trak above. -/
theorem claim_C4_witness :
    track_samples_from_boxes [Box.mk "moov" (some [cTrak4b]) none none] =
      .error "stbl box not found" :=
  claim_C4_missing_stbl_is_error.2 cTrak4b rfl rfl

/-- Concrete trak with an (empty) stbl, so that extraction succeeds. -/
def cTrak5 : Box :=
  Box.mk "trak"
    (some [Box.mk "mdia"
      (some [Box.mk "minf" (some [Box.mk "stbl" (some []) none none]) none none])
      none none])
    none none

/-- The TrackSamples produced for cTrak5. -/
def cTS5 : TrackSamples := ⟨1, "vide", 1000, 0, 0, []⟩

/-- C5: the claim states the returned track_id equals the ID stored in tkhd,
so tracks with tkhd IDs 1 and 2 would yield 1 and 2. The code never parses the
tkhd payload: find_track_id returns Ok(1) on every input, and every produced
TrackSamples carries track_id 1. -/
theorem claim_C5_track_id_stubbed :
    (∀ trak, find_track_id trak = .ok 1) ∧
    (∀ trak ts, extract_track_samples trak = .ok (some ts) → ts.track_id = 1) := by
  refine ⟨find_track_id_eq_one, ?_⟩
  intro trak ts h
  unfold extract_track_samples at h
  rw [find_track_id_eq_one trak] at h
  cases hstbl : find_stbl_box trak with
  | error e =>
    rw [hstbl] at h
    simp at h
  | ok stbl =>
    rw [hstbl] at h
    simp only [Except.ok.injEq, Option.some.injEq] at h
    rw [← h]

/-- C5 witness: on a concrete trak that extracts successfully, the produced
track_id is 1. -/
theorem claim_C5_witness : cTS5.track_id = 1 :=
  claim_C5_track_id_stubbed.2 cTrak5 cTS5 rfl

/-- C6: each emitted sample is a sync sample exactly when stss is absent or
its 1-based number (index + 1) occurs in stss.sample_numbers. -/
theorem claim_C6_sync_flags :
    ∀ (tables : SampleTables) (ts : Nat) (s : SampleInfo),
      s ∈ build_sample_info tables ts →
      ((tables.stss = none → s.is_sync = true) ∧
       (∀ d, tables.stss = some d →
         (s.is_sync = true ↔ (s.index + 1) ∈ d.sample_numbers))) := by
  intro tables ts s h
  cases hz : tables.stsz with
  | none =>
    rw [build_sample_info_of_stsz_none tables ts hz] at h
    simp at h
  | some stsz =>
    unfold build_sample_info at h
    rw [hz] at h
    obtain ⟨j, d0, rfl⟩ := mem_build_loop tables ts stsz.sample_count 0 0 _ h
    constructor
    · intro hn
      simp [mkSample_is_sync, is_sync_sample, hn]
    · intro d hd
      simp [mkSample_is_sync, mkSample_index, is_sync_sample, hd]

/-- Sample tables of scenario S6: stss=[1,4], five fixed-size samples. -/
def cTablesC6 : SampleTables :=
  ⟨none, none, none, none, some ⟨1, 5, []⟩, some ⟨[1, 4]⟩, none, none⟩

/-- C6 witness: the sync rule applied to the fourth emitted sample of
scenario S6. -/
theorem claim_C6_witness :
    ((build_sample_info cTablesC6 1000).getD 3 (mkSample cTablesC6 1000 0 0)).is_sync
        = true ↔
      (((build_sample_info cTablesC6 1000).getD 3
          (mkSample cTablesC6 1000 0 0)).index + 1) ∈
        (⟨[1, 4]⟩ : StssData).sample_numbers :=
  (claim_C6_sync_flags cTablesC6 1000 _ (by decide)).2 ⟨[1, 4]⟩ rfl

/-- C7: for a track with n = stsz.sample_count samples (n at most 2^32, every
per-sample duration below 2^32, as the u32 wire types guarantee), the emitted
list has dts 0 at index 0, satisfies dts_{j+1} = dts_j + duration_j, is
non-decreasing in dts, and carries index j at position j. -/
theorem claim_C7_dts_recurrence (tables : SampleTables) (ts : Nat) (stsz : StszData)
    (hz : tables.stsz = some stsz) (hn : stsz.sample_count ≤ U32)
    (hdur : ∀ i, sample_duration tables ts i < U32) :
    (∀ j s, (build_sample_info tables ts).get? j = some s → s.index = j) ∧
    (∀ s, (build_sample_info tables ts).get? 0 = some s → s.dts = 0) ∧
    (∀ j s s', (build_sample_info tables ts).get? j = some s →
      (build_sample_info tables ts).get? (j + 1) = some s' →
      s'.dts = s.dts + s.duration ∧ s.dts ≤ s'.dts) := by
  have hlen : (build_sample_info tables ts).length = stsz.sample_count :=
    build_sample_info_length tables ts stsz hz
  have hidx : ∀ j s, (build_sample_info tables ts).get? j = some s →
      s = mkSample tables ts j (dtsAt tables ts j) := by
    intro j s h
    have hj : j < stsz.sample_count := by
      have := (List.get?_eq_some.mp h).1
      omega
    rw [build_sample_info_get? tables ts stsz hz j hj] at h
    exact (Option.some.inj h).symm
  refine ⟨?_, ?_, ?_⟩
  · intro j s h
    rw [hidx j s h, mkSample_index]
  · intro s h
    rw [hidx 0 s h, mkSample_dts, dtsAt_zero]
  · intro j s s' h h'
    have hj : j + 1 < stsz.sample_count := by
      have := (List.get?_eq_some.mp h').1
      omega
    rw [hidx j s h, hidx (j + 1) s' h', mkSample_dts, mkSample_dts, mkSample_duration]
    have := dtsAt_succ tables ts hdur j (by omega)
    exact ⟨this, by omega⟩

/-- Sample tables for the C7 witness: no stts, three fixed-size samples. -/
def cTablesC7 : SampleTables :=
  ⟨none, none, none, none, some ⟨1, 3, []⟩, none, none, none⟩

/-- C7 witness: the recurrence applied to samples 0 and 1 of a concrete track
with default duration 41 at timescale 1000. -/
theorem claim_C7_witness :
    (mkSample cTablesC7 1000 1 41).dts =
      (mkSample cTablesC7 1000 0 0).dts + (mkSample cTablesC7 1000 0 0).duration :=
  ((claim_C7_dts_recurrence cTablesC7 1000 ⟨1, 3, []⟩ rfl (by norm_num [U32])
      (fun _ => show (41 : Nat) < U32 by norm_num [U32])).2.2 0
    (mkSample cTablesC7 1000 0 0) (mkSample cTablesC7 1000 1 41) rfl rfl).1

/-- Sample tables of scenario S4: stsc=[(1,5,1)], stco=[1000, 5000],
stsz fixed 200, ten samples. -/
def cTablesC8 : SampleTables :=
  ⟨none, none, none, some ⟨[⟨1, 5, 1⟩]⟩, some ⟨200, 10, []⟩, none,
    some ⟨[1000, 5000]⟩, none⟩

/-- C8: file offsets on scenario S4, with the fixed-size within-chunk offsets
landing at multiples of 200 above each chunk offset. -/
theorem claim_C8_fixed_size_offsets :
    get_sample_file_offset cTablesC8 0 = 1000 ∧
    get_sample_file_offset cTablesC8 4 = 1000 + 4 * 200 ∧
    get_sample_file_offset cTablesC8 5 = 5000 ∧
    get_sample_file_offset cTablesC8 9 = 5000 + 4 * 200 := by
  decide

/-- C9: a decode error from a registered decoder is captured as the decoded
text "[decode error: ...]" of that box, and the projection still yields a
JsonBox for every box of the tree: the preorder type lists coincide whatever
the registry returns. -/
theorem claim_C9_decode_error_captured :
    (∀ (reg : Registry) (fn : String → String) (b : BoxRef) (k : BoxKey)
        (off len : Nat) (e : String),
      payload_region b = some (k, off, len) → len ≠ 0 →
      reg k b.hdr = some (.error e) →
      (build_json_for_box reg fn true b).decoded =
        some ("[decode error: " ++ e ++ "]")) ∧
    (∀ (reg : Registry) (fn : String → String) (d : Bool) (b : BoxRef),
      jsonTypes (build_json_for_box reg fn d b) = boxTypes b) := by
  constructor
  · intro reg fn b k off len e hpr hlen hreg
    rw [build_json_decoded, if_pos rfl]
    unfold decode_value
    rw [hpr]
    show (if len = 0 then none
          else match reg k b.hdr with
            | some (.ok (.text s)) => some s
            | some (.ok (.bytes bs)) => some (toString bs.length ++ " bytes")
            | some (.error e) => some ("[decode error: " ++ e ++ "]")
            | none => none) = _
    rw [if_neg hlen, hreg]
  · intro reg fn d b
    exact jsonTypes_build reg fn d b

/-- Concrete leaf box for the C9 witness: a 16-byte box with an 8-byte payload. -/
def cBox9 : BoxRef := .leaf ⟨"free", none, 0, 16, 8⟩ 8 8

/-- Registry for the C9 witness: every decoder fails with "short". -/
def cReg9 : Registry := fun _ _ => some (.error "short")

/-- C9 witness: the erroring decoder turns the decoded field of the concrete
box into the decode-error text. -/
theorem claim_C9_witness :
    (build_json_for_box cReg9 (fun _ => "") true cBox9).decoded =
      some "[decode error: short]" :=
  claim_C9_decode_error_captured.1 cReg9 (fun _ => "") cBox9
    (BoxKey.fourCC "free") 8 8 "short" rfl (by decide) rfl

/-- C10: with stsz present but stts absent (and n, timescale within u32),
extraction still emits one sample per stsz entry, every duration is the
default timescale/24 (1000 when timescale is 0), and dts accumulates it:
dts_j = j * default. -/
theorem claim_C10_no_stts_default_duration (tables : SampleTables) (ts : Nat)
    (stsz : StszData) (hz : tables.stsz = some stsz) (ht : tables.stts = none)
    (hts : ts < U32) (hn : stsz.sample_count ≤ U32) :
    (build_sample_info tables ts).length = stsz.sample_count ∧
    (∀ j s, (build_sample_info tables ts).get? j = some s →
      s.duration = default_duration ts ∧ s.dts = j * default_duration ts) := by
  have hsd : ∀ i, sample_duration tables ts i = default_duration ts := by
    intro i
    unfold sample_duration
    rw [ht]
  have hdd : default_duration ts < U32 := by
    unfold default_duration
    split
    · have : ts / 24 ≤ ts := Nat.div_le_self ts 24
      omega
    · norm_num [U32]
  have hdur : ∀ i, sample_duration tables ts i < U32 := by
    intro i
    rw [hsd i]
    exact hdd
  have hdts : ∀ j, j ≤ U32 → dtsAt tables ts j = j * default_duration ts := by
    intro j
    induction j with
    | zero => intro _; simp [dtsAt_zero]
    | succ j ih =>
      intro hj
      rw [dtsAt_succ tables ts hdur j (by omega), ih (by omega), hsd j]
      ring
  refine ⟨build_sample_info_length tables ts stsz hz, ?_⟩
  intro j s h
  have hj : j < stsz.sample_count := by
    have := (List.get?_eq_some.mp h).1
    rw [build_sample_info_length tables ts stsz hz] at this
    omega
  rw [build_sample_info_get? tables ts stsz hz j hj] at h
  rw [← Option.some.inj h, mkSample_duration, mkSample_dts, hsd j,
    hdts j (by omega)]
  exact ⟨rfl, rfl⟩

/-- Sample tables for the C10 witness: three variable-size samples, no stts. -/
def cTablesC10 : SampleTables :=
  ⟨none, none, none, none, some ⟨0, 3, [5, 5, 5]⟩, none, none, none⟩

/-- C10 witness: the default-duration accumulation applied to the third sample
of a concrete track at timescale 1000. -/
theorem claim_C10_witness :
    (build_sample_info cTablesC10 1000).length = 3 ∧
    (mkSample cTablesC10 1000 2 82).duration = default_duration 1000 ∧
    (mkSample cTablesC10 1000 2 82).dts = 2 * default_duration 1000 :=
  have h := claim_C10_no_stts_default_duration cTablesC10 1000 ⟨0, 3, [5, 5, 5]⟩
    rfl rfl (by norm_num [U32]) (by norm_num [U32])
  ⟨h.1, (h.2 2 (mkSample cTablesC10 1000 2 82) rfl).1,
    (h.2 2 (mkSample cTablesC10 1000 2 82) rfl).2⟩

end Mp4
